import Mathlib

/-!
Shallow embedding of the BPFConductor ServiceMap aggregation engine
(src/agent/src/progs/service_map/program.rs) and of the socket-tracer
return probes (src/ebpf/socket-tracer/socket-tracer-ebpf/src/kprobes/
send.rs and recvmsg.rs), with theorems checking the design spec.
Machine u64 arithmetic is modelled as Nat with explicit reduction
modulo 2 ^ 64 where the Rust code performs wrapping addition.
-/

namespace BPFConductor

/-- Modulus of the u64 machine integers used for byte counters. -/
def U64MOD : Nat := 2 ^ 64

/-- Wrapping u64 addition, as performed by `*e += v` on u64 in Rust. -/
def u64add (a b : Nat) : Nat := (a + b) % U64MOD

/-- Generic association-list lookup (first match), modelling keyed-map get. -/
def alistFind {α : Type} [DecidableEq α] {β : Type} (k : α) : List (α × β) → Option β
  | [] => none
  | (k1, v) :: rest => if k = k1 then some v else alistFind k rest

/-- Generic association-list removal of every binding of a key, modelling keyed-map remove. -/
def alistRemove {α : Type} [DecidableEq α] {β : Type} (k : α) : List (α × β) → List (α × β)
  | [] => []
  | (k1, v) :: rest => if k = k1 then alistRemove k rest else (k1, v) :: alistRemove k rest

/-- `entry(k).and_modify(e += v).or_insert(v)`: add `v` (wrapping) to the
binding of `k` when present, otherwise insert `v` itself. -/
def addTo {α : Type} [DecidableEq α] (m : List (α × Nat)) (k : α) (v : Nat) : List (α × Nat) :=
  match m with
  | [] => [(k, v)]
  | (k1, v1) :: rest => if k = k1 then (k1, u64add v1 v) :: rest else (k1, v1) :: addTo rest k v

/-- Lookup with default 0: the byte total a map reports for a key. -/
def lookupD {α : Type} [DecidableEq α] (m : List (α × Nat)) (k : α) : Nat :=
  (alistFind k m).getD 0

/-- Modelled from the spec: the connection-role constants of the
`conn_tracer_common` crate, which is not under src/. The spec gives
`role ∈ {Unknown, Client, Server}`; they are distinct u32 constants. -/
def CONNECTION_ROLE_UNKNOWN : Nat := 0

/-- Modelled from the spec: the Client role constant of `conn_tracer_common`. -/
def CONNECTION_ROLE_CLIENT : Nat := 1

/-- Modelled from the spec: the Server role constant of `conn_tracer_common`. -/
def CONNECTION_ROLE_SERVER : Nat := 2

/-- A resolved workload identity; opaque to the engine, so modelled as Nat. -/
abbrev Workload := Nat

/-- Modelled from the spec: `ConnectionKey` of `conn_tracer_common`
(not under src/): `(src_addr, src_port, dest_addr, dest_port, role)`,
as used field-by-field in program.rs. -/
structure ConnectionKey where
  src_addr : Nat
  src_port : Nat
  dest_addr : Nat
  dest_port : Nat
  role : Nat
deriving DecidableEq, Repr

/-- Modelled from the spec: `ConnectionStats` of `conn_tracer_common`
(not under src/): a u64 byte counter plus a u32 activity flag, as used
field-by-field in program.rs (`is_active != 1` marks inactive). -/
structure ConnectionStats where
  bytes_sent : Nat
  is_active : Nat
deriving DecidableEq, Repr

/-- `Connection` from program.rs: the logical aggregation key.
Equality is structural over all four fields, role included. -/
structure Connection where
  client : Workload
  server : Workload
  role : Nat
  server_port : Nat
deriving DecidableEq, Repr

/-- `ProgramState` from the agent common types, as used by program.rs. -/
inductive ProgramState where
  | Uninitialized
  | Initialized
  | Running
  | Failed
deriving DecidableEq, Repr

/-- The raw kernel connection table: keyed entries of stats. -/
abbrev ConnTable := List (ConnectionKey × ConnectionStats)

/-- `Inner` from program.rs. The cache manager is modelled as the
ip-to-workload mapping it carries (the ip string key of the Rust map is
the injective image of the u32 address, so we key by the address). -/
structure Inner where
  name : String
  program_state : ProgramState
  metadata : List (String × String)
  current_conns_map : Option ConnTable
  past_conns_map : List (Connection × Nat)
  cache_mgr : Option (List (Nat × Workload))
deriving DecidableEq, Repr

def errNoMap : String := "No current connections map"

def errUnknownIp : String := "Unknown IP"

def errUnknownRole : String := "Unknown connection role"

def errRemove : String := "remove failed"

/-- `resolve_ip` from program.rs: look the address up in the cache
manager ip-to-workload map; None when no cache manager is bound. -/
def resolve_ip (inner : Inner) (ip : Nat) : Option Workload :=
  match inner.cache_mgr with
  | none => none
  | some m => alistFind ip m

/-- `is_loopback_address` from program.rs: `Ipv4Addr::from(addr).is_loopback()`,
i.e. the top octet of the big-endian u32 address equals 127. -/
def is_loopback_address (addr : Nat) : Bool :=
  addr / 2 ^ 24 % 256 == 127

/-- `build_connection` from program.rs: resolve both endpoints, then pick
client/server and the canonical server port from the role. -/
def build_connection (inner : Inner) (key : ConnectionKey) : Except String Connection :=
  match resolve_ip inner key.src_addr with
  | none => .error errUnknownIp
  | some client_workload =>
    match resolve_ip inner key.dest_addr with
    | none => .error errUnknownIp
    | some server_workload =>
      if key.role = CONNECTION_ROLE_CLIENT then
        .ok ⟨client_workload, server_workload, key.role, key.dest_port⟩
      else if key.role = CONNECTION_ROLE_SERVER then
        .ok ⟨server_workload, client_workload, key.role, key.src_port⟩
      else .error errUnknownRole

/-- The outcome of calling a function of the engine on the current thread:
either the call returns a value, or the thread blocks forever on the
engine `parking_lot::RwLock` (which is not reentrant: `write()` blocks
while the same thread holds any guard on it, and `read()` blocks while
the same thread holds the write guard). `blocks` carries the engine
state left behind at the moment of blocking — the state any concurrent
reader would still observe. -/
inductive Outcome (α : Type) where
  | returns (a : α)
  | blocks (st : Inner)
deriving Repr

/-- `handle_inactive_connection` from program.rs, with the lock discipline
made explicit. `heldReads` is the number of read guards the calling
thread already holds on the engine lock; the `self.inner.write()` at
program.rs:170 blocks forever when it is nonzero. When no guard is held
the write succeeds, the throughput read and the raw-table removal at
program.rs:175-180 go through, and then `build_connection` at :183 calls
`resolve_ip`, whose `self.inner.read()` at :136 blocks forever under the
write guard still held from :170 — before the cloned archive
(program.rs:182, mutated and dropped at :184-187) could even matter. So
the function returns only on its two early error paths. -/
def handle_inactive_connection (heldReads : Nat) (inner : Inner) (key : ConnectionKey) :
    Outcome (Except String Unit × Inner) :=
  if heldReads ≠ 0 then .blocks inner
  else
    match inner.current_conns_map with
    | none => .returns (.error errNoMap, inner)
    | some t =>
      let _throughput := match alistFind key t with
        | some stats => stats.bytes_sent
        | none => 0
      match alistFind key t with
      | none => .returns (.error errRemove, inner)
      | some _ =>
        .blocks { inner with current_conns_map := some (alistRemove key t) }

/-- One step of the scan loop of `poll`: inactive entries are queued for
eviction; self-traffic, loopback destinations, unknown roles and
unresolvable endpoints are skipped; the rest accumulate into the pass
running totals. -/
def pollStep (inner : Inner) (acc : List (Connection × Nat) × List ConnectionKey)
    (e : ConnectionKey × ConnectionStats) : List (Connection × Nat) × List ConnectionKey :=
  if e.2.is_active ≠ 1 then (acc.1, acc.2 ++ [e.1])
  else if e.1.src_addr = e.1.dest_addr ∨ is_loopback_address e.1.dest_addr = true then acc
  else if e.1.role = CONNECTION_ROLE_UNKNOWN then acc
  else match build_connection inner e.1 with
    | .ok c => (addTo acc.1 c e.2.bytes_sent, acc.2)
    | .error _ => acc

/-- Fold a list of keyed amounts into a running-total map with `addTo`:
the shape of both accumulation loops of `poll`. -/
def accumAll {α : Type} [DecidableEq α] (m : List (α × Nat)) (l : List (α × Nat)) :
    List (α × Nat) :=
  l.foldl (fun m p => addTo m p.1 p.2) m

/-- The post-scan eviction loop of `poll` (program.rs:128-131): run
`handle_inactive_connection` on each queued key, discarding each Rust
result (`let _ = ...` in the source) but propagating a block forever. -/
def evictLoop (heldReads : Nat) (st : Inner) : List ConnectionKey → Outcome Inner
  | [] => .returns st
  | k :: rest =>
    match handle_inactive_connection heldReads st k with
    | .returns (_, st2) => evictLoop heldReads st2 rest
    | .blocks stB => .blocks stB

/-- `poll` from program.rs: take the read guard (program.rs:91, held to
the end of the function), scan the raw table, fold in the archive, then
run the eviction loop — still under that read guard, so with any key
queued the first `handle_inactive_connection` blocks forever at :170 and
`poll` never returns. (`resolve_ip`'s transient recursive `read()` during
the scan succeeds: the single engine task has no contending writer.)
With no inactive key, the cumulative snapshot is returned and the engine
state is untouched. -/
def poll (inner : Inner) :
    Outcome (Except String (List (Connection × Nat)) × Inner) :=
  match inner.current_conns_map with
  | none => .returns (.error errNoMap, inner)
  | some t =>
    let scan := t.foldl (pollStep inner) ([], [])
    let current_conns := accumAll scan.1 inner.past_conns_map
    match evictLoop 1 inner scan.2 with
    | .returns inner2 => .returns (.ok current_conns, inner2)
    | .blocks stB => .blocks stB

/-- `reset` from program.rs: clear the table handle, archive and metadata
and return to the uninitialized state (the cache manager is kept). -/
def reset (inner : Inner) : Inner :=
  { inner with
    current_conns_map := none
    past_conns_map := []
    metadata := []
    program_state := .Uninitialized }

/-- `ShutdownSignal` from the agent program types, as matched in `start`. -/
inductive ShutdownSignal where
  | All
  | ProgramName (name : String)
deriving DecidableEq, Repr

/-- One resolution of the `tokio::select!` in the `start` loop: either the
interval tick fires or a shutdown signal is received. -/
inductive Event where
  | tick
  | signal (s : ShutdownSignal)
deriving DecidableEq, Repr

/-- The loop of `start` from program.rs, driven by a finite schedule of
select resolutions. `none` means the call has not returned: the schedule
ended with the loop still running, or a poll blocked forever (in which
case no later event is ever serviced and the call never returns).
`some (res, st)` is the return value and engine state at exit. A tick
polls: on a poll error the state is set to Failed and the error returned
with no reset; an addressed shutdown signal breaks the loop and resets. -/
def runLoop : Inner → List Event → Option (Except String Unit × Inner)
  | _, [] => none
  | inner, Event.tick :: rest =>
    match poll inner with
    | .returns (.error e, _) => some (.error e, { inner with program_state := .Failed })
    | .returns (.ok _, inner2) => runLoop inner2 rest
    | .blocks _ => none
  | inner, Event.signal s :: rest =>
    match s with
    | .All => some (.ok (), reset inner)
    | .ProgramName n =>
      if n = inner.name then some (.ok (), reset inner) else runLoop inner rest

/-- `start` from program.rs: set the state to Running, then run the loop. -/
def start (inner : Inner) (events : List Event) : Option (Except String Unit × Inner) :=
  runLoop { inner with program_state := ProgramState.Running } events

/-- The per-entry contribution a raw table entry makes to the scan pass of
`poll`: `some (connection, bytes)` exactly when the entry is active,
not self-traffic, not loopback-addressed, has a known role and both
endpoints resolve; `none` otherwise. Mirrors the branch order of `poll`. -/
def rawContribution (inner : Inner) (e : ConnectionKey × ConnectionStats) :
    Option (Connection × Nat) :=
  if e.2.is_active ≠ 1 then none
  else if e.1.src_addr = e.1.dest_addr ∨ is_loopback_address e.1.dest_addr = true then none
  else if e.1.role = CONNECTION_ROLE_UNKNOWN then none
  else match build_connection inner e.1 with
    | .ok c => some (c, e.2.bytes_sent)
    | .error _ => none

/-- The amounts a list of keyed amounts carries for one key, in order. -/
def valuesAt {α : Type} [DecidableEq α] (l : List (α × Nat)) (k : α) : List Nat :=
  (l.filter (fun p => p.1 = k)).map Prod.snd

/-- The byte counts of the raw entries of table `t` that contribute to
`Connection` `c` during a scan pass. -/
def activeBytes (inner : Inner) (t : ConnTable) (c : Connection) : List Nat :=
  valuesAt (t.filterMap (rawContribution inner)) c

/-! ### Kernel-space syscall correlation protocol (return probes)

Shallow embedding of `try_ret_send` (send.rs) and `try_ret_recvmsg`
(recvmsg.rs). The scratch tables are keyed association lists; the
black-box accounting routines `process_syscall_data` and
`process_syscall_data_vecs` are represented by their result, passed in
as a parameter, together with an explicit count of how many traffic
samples the invocation emits (how many times the routine is called).
A kretprobe invocation always carries the return value of the syscall,
so `bytes_count` is a plain argument. -/

/-- Modelled from the spec: `SourceFunction` of `socket_tracer_common`
(not under src/), with the variants the probes construct. -/
inductive SourceFunction where
  | SyscallSend
  | SyscallRecvMsg
  | SyscallWrite
deriving DecidableEq, Repr

/-- Modelled from the spec: `DataArgs` of `socket_tracer_lib` types
(not under src/), with the fields the probes fill in; pointers are
modelled as numeric addresses. -/
structure DataArgs where
  source_function : SourceFunction
  sock_event : Bool
  fd : Int
  buf : Nat
  iov : Nat
  iovlen : Nat
  msg_len : Nat
deriving DecidableEq, Repr

/-- Modelled from the spec: `ConnectArgs` of `socket_tracer_lib` types
(not under src/): the sockaddr pointer and fd captured at recvmsg entry. -/
structure ConnectArgs where
  sockaddr : Nat
  fd : Int
deriving DecidableEq, Repr

/-- `try_ret_send` from send.rs: look up the scratch record for the
thread; if absent, error out with no sample; if present, run the
accounting routine (one sample), remove the record, and return the
accounting result. Result components: Rust return value, the scratch
table afterwards, and the number of samples emitted. -/
def try_ret_send (pid_tgid : Nat) (bytes_count : Int) (write_map : List (Nat × DataArgs))
    (acct_res : Except Int Unit) : Except Int Unit × List (Nat × DataArgs) × Nat :=
  let _ := bytes_count
  match alistFind pid_tgid write_map with
  | none => (.error 1, write_map, 0)
  | some _ => (acct_res, alistRemove pid_tgid write_map, 1)

/-- `try_ret_recvmsg` from recvmsg.rs: drop any pending `ConnectArgs`
scratch record, then resolve the `DataArgs` record exactly as the send
path does. Result components: Rust return value, connect scratch table,
read scratch table, and the number of samples emitted. -/
def try_ret_recvmsg (pid_tgid : Nat) (bytes_count : Int)
    (connect_map : List (Nat × ConnectArgs)) (read_map : List (Nat × DataArgs))
    (acct_res : Except Int Unit) :
    Except Int Unit × List (Nat × ConnectArgs) × List (Nat × DataArgs) × Nat :=
  let _ := bytes_count
  let connect_map2 := match alistFind pid_tgid connect_map with
    | some _ => alistRemove pid_tgid connect_map
    | none => connect_map
  match alistFind pid_tgid read_map with
  | none => (.error 1, connect_map2, read_map, 0)
  | some _ => (acct_res, connect_map2, alistRemove pid_tgid read_map, 1)

/-- The keys of the raw entries a scan pass queues for eviction: those
whose stats are not active. -/
def inactiveKeys (t : ConnTable) : List ConnectionKey :=
  (t.filter (fun e => decide (e.2.is_active ≠ 1))).map Prod.fst

/-- The raw entries that are neither self-traffic nor loopback-addressed:
the complement of the exclusion tested by the second skip of `poll`. -/
def notSelfLoopback (e : ConnectionKey × ConnectionStats) : Bool :=
  !(decide (e.1.src_addr = e.1.dest_addr) || is_loopback_address e.1.dest_addr)

/-- The raw entries both of whose endpoints the engine can resolve. -/
def bothResolvable (inner : Inner) (e : ConnectionKey × ConnectionStats) : Bool :=
  !(decide (resolve_ip inner e.1.src_addr = none) ||
    decide (resolve_ip inner e.1.dest_addr = none))

/-! ### Concrete example inputs used by witnesses and counterexamples -/

/-- Address A of the spec scenarios (top octet 0, not loopback). -/
def addrA : Nat := 10

/-- Address B of the spec scenarios (top octet 0, not loopback). -/
def addrB : Nat := 20

/-- Workload X, the resolution of address A. -/
def wlX : Workload := 1

/-- Workload Y, the resolution of address B. -/
def wlY : Workload := 2

/-- The resolver of the spec scenarios: A to X, B to Y. -/
def exResolver : List (Nat × Workload) := [(addrA, wlX), (addrB, wlY)]

/-- The raw table of the role-symmetric aggregation scenario: two active
raw entries, Client-role A:1000 to B:80 with 100 bytes and Server-role
B:80 to A:1000 with 50 bytes. -/
def exTableC3 : ConnTable :=
  [(⟨addrA, 1000, addrB, 80, CONNECTION_ROLE_CLIENT⟩, ⟨100, 1⟩),
   (⟨addrB, 80, addrA, 1000, CONNECTION_ROLE_SERVER⟩, ⟨50, 1⟩)]

/-- Engine state for the role-symmetric aggregation scenario. -/
def exInnerC3 : Inner :=
  { name := "service_map"
    program_state := ProgramState.Initialized
    metadata := []
    current_conns_map := some exTableC3
    past_conns_map := []
    cache_mgr := some exResolver }

/-- The Client-role logical connection of the scenario. -/
def connC3client : Connection := ⟨wlX, wlY, CONNECTION_ROLE_CLIENT, 80⟩

/-- The Server-role logical connection of the scenario. -/
def connC3server : Connection := ⟨wlX, wlY, CONNECTION_ROLE_SERVER, 80⟩

/-- The raw table of the eviction scenario: one raw entry that has gone
inactive with a final count of 120 bytes, both endpoints resolvable. -/
def exTableC1 : ConnTable :=
  [(⟨addrA, 1000, addrB, 80, CONNECTION_ROLE_CLIENT⟩, ⟨120, 0⟩)]

/-- Engine state for the eviction scenario. -/
def exInnerC1 : Inner :=
  { name := "service_map"
    program_state := ProgramState.Running
    metadata := []
    current_conns_map := some exTableC1
    past_conns_map := []
    cache_mgr := some exResolver }

/-- A raw table with one active resolvable entry of 30 bytes and one
inactive entry of 120 bytes: a state on which the source poll blocks. -/
def exTableC2 : ConnTable :=
  [(⟨addrA, 1000, addrB, 80, CONNECTION_ROLE_CLIENT⟩, ⟨30, 1⟩),
   (⟨addrB, 80, addrA, 1000, CONNECTION_ROLE_SERVER⟩, ⟨120, 0⟩)]

/-- Engine state over `exTableC2`. -/
def exInnerC2 : Inner :=
  { name := "service_map"
    program_state := ProgramState.Running
    metadata := []
    current_conns_map := some exTableC2
    past_conns_map := []
    cache_mgr := some exResolver }

/-- An initialized-looking engine whose table handle is absent, with
nonempty metadata, used to exercise the failure exit of `start`. -/
def exInnerC4 : Inner :=
  { name := "service_map"
    program_state := ProgramState.Initialized
    metadata := [("k", "v")]
    current_conns_map := none
    past_conns_map := []
    cache_mgr := none }

/-- The raw table of the failed-resolution eviction scenario: one inactive
raw entry (endpoints unknown to the resolver below). -/
def exTableC10 : ConnTable :=
  [(⟨addrA, 1000, addrB, 80, CONNECTION_ROLE_CLIENT⟩, ⟨120, 0⟩)]

/-- Engine state for the failed-resolution eviction scenario: the cache
manager is bound but knows no address. -/
def exInnerC10 : Inner :=
  { name := "service_map"
    program_state := ProgramState.Running
    metadata := []
    current_conns_map := some exTableC10
    past_conns_map := []
    cache_mgr := some [] }

/-- A concrete scratch record for the probe witnesses. -/
def exDataArgs : DataArgs :=
  { source_function := SourceFunction.SyscallSend
    sock_event := false
    fd := 3
    buf := 0
    iov := 0
    iovlen := 0
    msg_len := 0 }

/-! ### Helper lemmas: association lists and wrapping accumulation -/

theorem U64MOD_pos : 0 < U64MOD := by norm_num [U64MOD]

theorem u64add_lt (a b : Nat) : u64add a b < U64MOD := Nat.mod_lt _ U64MOD_pos

theorem u64add_zero (a : Nat) (h : a < U64MOD) : u64add a 0 = a := by
  unfold u64add
  simp [Nat.mod_eq_of_lt h]

theorem alistFind_alistRemove {α β : Type} [DecidableEq α] (k k' : α) (m : List (α × β)) :
    alistFind k' (alistRemove k m) = if k' = k then none else alistFind k' m := by
  induction m with
  | nil => simp [alistRemove, alistFind]
  | cons hd tl ih =>
    obtain ⟨k1, v⟩ := hd
    simp only [alistRemove, alistFind]
    by_cases h1 : k = k1
    · rw [if_pos h1, ih]
      by_cases h2 : k' = k
      · simp [h2]
      · simp [h2, h1 ▸ h2]
    · rw [if_neg h1]
      simp only [alistFind]
      by_cases h2 : k' = k1
      · have hne : ¬k1 = k := fun hc => h1 hc.symm
        simp [h2, hne]
      · simp [h2, ih]

theorem alistFind_mem {α β : Type} [DecidableEq α] (k : α) (m : List (α × β)) (v : β)
    (h : alistFind k m = some v) : (k, v) ∈ m := by
  induction m with
  | nil => simp [alistFind] at h
  | cons hd tl ih =>
    obtain ⟨k1, v1⟩ := hd
    simp only [alistFind] at h
    by_cases hk : k = k1
    · rw [if_pos hk] at h
      injection h with h
      subst hk
      subst h
      exact List.mem_cons_self _ _
    · rw [if_neg hk] at h
      exact List.mem_cons_of_mem _ (ih h)

theorem alistFind_addTo {α : Type} [DecidableEq α] (m : List (α × Nat)) (k k' : α) (v : Nat) :
    alistFind k' (addTo m k v) =
      if k' = k then some ((alistFind k m).elim v (fun w => u64add w v))
      else alistFind k' m := by
  induction m with
  | nil =>
    simp only [addTo, alistFind]
    by_cases h : k' = k <;> simp [h]
  | cons hd tl ih =>
    obtain ⟨k1, v1⟩ := hd
    simp only [addTo, alistFind]
    by_cases h1 : k = k1
    · rw [if_pos h1]
      simp only [alistFind]
      by_cases h2 : k' = k1
      · simp [h2, h1 ▸ h2.symm, h1]
      · have : ¬k' = k := fun hk => h2 (hk.trans h1)
        simp [h2, this]
    · rw [if_neg h1]
      simp only [alistFind]
      by_cases h2 : k' = k1
      · have hne : ¬k1 = k := fun hc => h1 hc.symm
        simp [h2, hne, h1]
      · simp only [if_neg h2, ih]
        by_cases h3 : k' = k
        · have : ¬k = k1 := h1
          simp [h3, h3 ▸ h2, this]
        · simp [h3]

theorem addTo_wf {α : Type} [DecidableEq α] (m : List (α × Nat)) (k : α) (v : Nat)
    (hm : ∀ p ∈ m, p.2 < U64MOD) (hv : v < U64MOD) :
    ∀ p ∈ addTo m k v, p.2 < U64MOD := by
  induction m with
  | nil =>
    intro p hp
    simp only [addTo, List.mem_singleton] at hp
    subst hp
    exact hv
  | cons hd tl ih =>
    obtain ⟨k1, v1⟩ := hd
    intro p hp
    simp only [addTo] at hp
    by_cases h1 : k = k1
    · rw [if_pos h1] at hp
      rcases List.mem_cons.mp hp with h | h
      · subst h
        exact u64add_lt _ _
      · exact hm p (List.mem_cons_of_mem _ h)
    · rw [if_neg h1] at hp
      rcases List.mem_cons.mp hp with h | h
      · subst h
        exact hm _ (List.mem_cons_self _ _)
      · exact ih (fun q hq => hm q (List.mem_cons_of_mem _ hq)) p h

theorem lookupD_lt {α : Type} [DecidableEq α] (m : List (α × Nat)) (k : α)
    (hm : ∀ p ∈ m, p.2 < U64MOD) : lookupD m k < U64MOD := by
  unfold lookupD
  cases hf : alistFind k m with
  | none => exact U64MOD_pos
  | some v => exact hm (k, v) (alistFind_mem k m v hf)

theorem lookupD_addTo {α : Type} [DecidableEq α] (m : List (α × Nat)) (k k' : α) (v : Nat)
    (hv : v < U64MOD) :
    lookupD (addTo m k v) k' = if k' = k then u64add (lookupD m k) v else lookupD m k' := by
  unfold lookupD
  rw [alistFind_addTo]
  by_cases h : k' = k
  · rw [if_pos h, if_pos h]
    cases hf : alistFind k m with
    | none => simp [u64add, Nat.mod_eq_of_lt hv]
    | some w => simp
  · rw [if_neg h, if_neg h]

theorem foldl_u64add_lt (l : List Nat) (a : Nat) (ha : a < U64MOD) :
    l.foldl u64add a < U64MOD := by
  induction l generalizing a with
  | nil => exact ha
  | cons b rest ih => exact ih (u64add a b) (u64add_lt a b)

theorem accumAll_wf {α : Type} [DecidableEq α] (l m : List (α × Nat))
    (hm : ∀ p ∈ m, p.2 < U64MOD) (hl : ∀ p ∈ l, p.2 < U64MOD) :
    ∀ p ∈ accumAll m l, p.2 < U64MOD := by
  induction l generalizing m with
  | nil => exact hm
  | cons q rest ih =>
    exact ih (addTo m q.1 q.2)
      (addTo_wf m q.1 q.2 hm (hl q (List.mem_cons_self _ _)))
      (fun p hp => hl p (List.mem_cons_of_mem _ hp))

theorem valuesAt_cons {α : Type} [DecidableEq α] (p : α × Nat) (l : List (α × Nat)) (k : α) :
    valuesAt (p :: l) k = if p.1 = k then p.2 :: valuesAt l k else valuesAt l k := by
  unfold valuesAt
  by_cases h : p.1 = k <;> simp [List.filter_cons, h]

theorem lookupD_accumAll {α : Type} [DecidableEq α] (l m : List (α × Nat)) (k : α)
    (hm : ∀ p ∈ m, p.2 < U64MOD) (hl : ∀ p ∈ l, p.2 < U64MOD) :
    lookupD (accumAll m l) k = (valuesAt l k).foldl u64add (lookupD m k) := by
  induction l generalizing m with
  | nil => rfl
  | cons p rest ih =>
    have hstep : accumAll m (p :: rest) = accumAll (addTo m p.1 p.2) rest := rfl
    have hp2 : p.2 < U64MOD := hl p (List.mem_cons_self _ _)
    rw [hstep, ih (addTo m p.1 p.2)
      (addTo_wf m p.1 p.2 hm hp2)
      (fun q hq => hl q (List.mem_cons_of_mem _ hq)), valuesAt_cons]
    rw [lookupD_addTo m p.1 k p.2 hp2]
    by_cases h : p.1 = k
    · simp [h]
    · have : ¬k = p.1 := fun hk => h hk.symm
      simp [h, this]

theorem valuesAt_nodup {α : Type} [DecidableEq α] (l : List (α × Nat)) (k : α)
    (h : (l.map Prod.fst).Nodup) :
    valuesAt l k = (alistFind k l).elim [] (fun v => [v]) := by
  induction l with
  | nil => rfl
  | cons p rest ih =>
    obtain ⟨k1, v⟩ := p
    rw [List.map_cons, List.nodup_cons] at h
    rw [valuesAt_cons]
    simp only [alistFind]
    by_cases hk : k1 = k
    · have hke : k = k1 := hk.symm
      rw [if_pos hk, if_pos hke]
      have hnil : valuesAt rest k = [] := by
        unfold valuesAt
        have : rest.filter (fun p => p.1 = k) = [] := by
          rw [List.filter_eq_nil_iff]
          intro a ha hcontra
          apply h.1
          have ha1 : a.1 = k := by simpa using hcontra
          have hfst : (k1, v).1 = a.1 := by simp [ha1, hk]
          rw [hfst]
          exact List.mem_map_of_mem Prod.fst ha
        rw [this]
        rfl
      rw [hnil]
      rfl
    · have hke : ¬k = k1 := fun hkk => hk hkk.symm
      rw [if_neg hk, if_neg hke]
      exact ih h.2

/-! ### Helper lemmas: the scan and eviction phases of poll -/

theorem scan_fst (inner : Inner) (t : ConnTable) (m : List (Connection × Nat))
    (ks : List ConnectionKey) :
    (t.foldl (pollStep inner) (m, ks)).1 = accumAll m (t.filterMap (rawContribution inner)) := by
  induction t generalizing m ks with
  | nil => rfl
  | cons e rest ih =>
    rw [List.foldl_cons, List.filterMap_cons]
    by_cases h1 : e.2.is_active ≠ 1
    · simp only [pollStep, rawContribution, if_pos h1]
      exact ih m (ks ++ [e.1])
    · by_cases h2 : e.1.src_addr = e.1.dest_addr ∨ is_loopback_address e.1.dest_addr = true
      · simp only [pollStep, rawContribution, if_neg h1, if_pos h2]
        exact ih m ks
      · by_cases h3 : e.1.role = CONNECTION_ROLE_UNKNOWN
        · simp only [pollStep, rawContribution, if_neg h1, if_neg h2, if_pos h3]
          exact ih m ks
        · cases hb : build_connection inner e.1 with
          | ok c =>
            simp only [pollStep, rawContribution, if_neg h1, if_neg h2, if_neg h3, hb]
            exact ih (addTo m c e.2.bytes_sent) ks
          | error msg =>
            simp only [pollStep, rawContribution, if_neg h1, if_neg h2, if_neg h3, hb]
            exact ih m ks

theorem scan_snd (inner : Inner) (t : ConnTable) (m : List (Connection × Nat))
    (ks : List ConnectionKey) :
    (t.foldl (pollStep inner) (m, ks)).2 =
      ks ++ (t.filter (fun e => decide (e.2.is_active ≠ 1))).map Prod.fst := by
  induction t generalizing m ks with
  | nil => simp
  | cons e rest ih =>
    rw [List.foldl_cons, List.filter_cons]
    by_cases h1 : e.2.is_active ≠ 1
    · rw [if_pos (show decide (e.2.is_active ≠ 1) = true by simp [h1])]
      simp only [pollStep, if_pos h1]
      rw [ih m (ks ++ [e.1]), List.map_cons]
      simp
    · rw [if_neg (show ¬decide (e.2.is_active ≠ 1) = true by simp [h1])]
      simp only [pollStep, if_neg h1]
      by_cases h2 : e.1.src_addr = e.1.dest_addr ∨ is_loopback_address e.1.dest_addr = true
      · simp only [if_pos h2]
        exact ih m ks
      · by_cases h3 : e.1.role = CONNECTION_ROLE_UNKNOWN
        · simp only [if_neg h2, if_pos h3]
          exact ih m ks
        · cases hb : build_connection inner e.1 with
          | ok c =>
            simp only [if_neg h2, if_neg h3, hb]
            exact ih (addTo m c e.2.bytes_sent) ks
          | error msg =>
            simp only [if_neg h2, if_neg h3, hb]
            exact ih m ks

theorem evictLoop_cons_blocks (st : Inner) (k : ConnectionKey) (ks : List ConnectionKey) :
    evictLoop 1 st (k :: ks) = .blocks st := by
  simp [evictLoop, handle_inactive_connection]

theorem poll_eq_active (inner : Inner) (t : ConnTable) (h : inner.current_conns_map = some t)
    (hall : inactiveKeys t = []) :
    poll inner = .returns
      (.ok (accumAll (accumAll [] (t.filterMap (rawContribution inner))) inner.past_conns_map),
       inner) := by
  have hsnd : (t.foldl (pollStep inner) ([], [])).2 = [] := by
    rw [scan_snd inner t [] []]
    simpa [inactiveKeys] using hall
  simp only [poll, h]
  rw [hsnd, scan_fst inner t [] []]
  simp [evictLoop]

theorem poll_eq_blocked (inner : Inner) (t : ConnTable) (h : inner.current_conns_map = some t)
    (hne : inactiveKeys t ≠ []) : poll inner = .blocks inner := by
  have hsnd : (t.foldl (pollStep inner) ([], [])).2 = inactiveKeys t := by
    rw [scan_snd inner t [] []]
    simp [inactiveKeys]
  simp only [poll, h]
  rw [hsnd]
  cases hik : inactiveKeys t with
  | nil => exact absurd hik hne
  | cons k ks => rw [evictLoop_cons_blocks]

theorem poll_ok_inv (inner : Inner) (out : List (Connection × Nat)) (st2 : Inner)
    (hp : poll inner = .returns (.ok out, st2)) :
    ∃ t, inner.current_conns_map = some t ∧ inactiveKeys t = [] ∧
      out = accumAll (accumAll [] (t.filterMap (rawContribution inner))) inner.past_conns_map ∧
      st2 = inner := by
  cases hm : inner.current_conns_map with
  | none => simp [poll, hm] at hp
  | some t =>
    cases hik : inactiveKeys t with
    | nil =>
      rw [poll_eq_active inner t hm hik] at hp
      injection hp with hpair
      injection hpair with hex hst
      injection hex with hout
      exact ⟨t, rfl, hik, hout.symm, hst.symm⟩
    | cons k ks =>
      rw [poll_eq_blocked inner t hm (by rw [hik]; exact List.cons_ne_nil _ _)] at hp
      simp at hp

theorem poll_blocks_inv (inner : Inner) (stB : Inner) (hp : poll inner = .blocks stB) :
    stB = inner := by
  cases hm : inner.current_conns_map with
  | none => simp [poll, hm] at hp
  | some t =>
    cases hik : inactiveKeys t with
    | nil =>
      rw [poll_eq_active inner t hm hik] at hp
      simp at hp
    | cons k ks =>
      rw [poll_eq_blocked inner t hm (by rw [hik]; exact List.cons_ne_nil _ _)] at hp
      injection hp with h
      exact h.symm

theorem poll_no_error (inner : Inner) (t : ConnTable) (h : inner.current_conns_map = some t) :
    ∀ msg st2, poll inner ≠ .returns (.error msg, st2) := by
  intro msg st2 hp
  cases hik : inactiveKeys t with
  | nil =>
    rw [poll_eq_active inner t h hik] at hp
    simp at hp
  | cons k ks =>
    rw [poll_eq_blocked inner t h (by rw [hik]; exact List.cons_ne_nil _ _)] at hp
    simp at hp

/-! ### Helper lemmas: skipped entries, exits of the start loop -/

theorem filterMap_of_filter {α β : Type} (f : α → Option β) (p : α → Bool) (l : List α)
    (h : ∀ a ∈ l, p a = false → f a = none) :
    (l.filter p).filterMap f = l.filterMap f := by
  induction l with
  | nil => rfl
  | cons a rest ih =>
    rw [List.filter_cons, List.filterMap_cons]
    cases hp : p a with
    | true =>
      rw [if_pos rfl, List.filterMap_cons]
      cases hf : f a with
      | none => exact ih fun b hb => h b (List.mem_cons_of_mem _ hb)
      | some c => rw [ih fun b hb => h b (List.mem_cons_of_mem _ hb)]
    | false =>
      rw [if_neg Bool.false_ne_true, h a (List.mem_cons_self _ _) hp]
      exact ih fun b hb => h b (List.mem_cons_of_mem _ hb)

theorem build_connection_err (inner : Inner) (key : ConnectionKey)
    (hres : resolve_ip inner key.src_addr = none ∨ resolve_ip inner key.dest_addr = none) :
    ∃ msg, build_connection inner key = .error msg := by
  unfold build_connection
  cases hs : resolve_ip inner key.src_addr with
  | none => exact ⟨errUnknownIp, rfl⟩
  | some cw =>
    cases hd : resolve_ip inner key.dest_addr with
    | none => exact ⟨errUnknownIp, rfl⟩
    | some sw =>
      rcases hres with h | h
      · rw [hs] at h
        cases h
      · rw [hd] at h
        cases h

theorem rawContribution_none_of_excluded (inner : Inner) (e : ConnectionKey × ConnectionStats)
    (h : notSelfLoopback e = false) : rawContribution inner e = none := by
  have hcond : e.1.src_addr = e.1.dest_addr ∨ is_loopback_address e.1.dest_addr = true := by
    simp only [notSelfLoopback, Bool.not_eq_false', Bool.or_eq_true, decide_eq_true_eq] at h
    exact h
  unfold rawContribution
  by_cases h1 : e.2.is_active ≠ 1
  · rw [if_pos h1]
  · rw [if_neg h1, if_pos hcond]

theorem rawContribution_none_of_unresolved (inner : Inner) (e : ConnectionKey × ConnectionStats)
    (h : bothResolvable inner e = false) : rawContribution inner e = none := by
  have hcond : resolve_ip inner e.1.src_addr = none ∨ resolve_ip inner e.1.dest_addr = none := by
    simp only [bothResolvable, Bool.not_eq_false', Bool.or_eq_true, decide_eq_true_eq] at h
    exact h
  obtain ⟨msg, hmsg⟩ := build_connection_err inner e.1 hcond
  unfold rawContribution
  by_cases h1 : e.2.is_active ≠ 1
  · rw [if_pos h1]
  · rw [if_neg h1]
    by_cases h2 : e.1.src_addr = e.1.dest_addr ∨ is_loopback_address e.1.dest_addr = true
    · rw [if_pos h2]
    · rw [if_neg h2]
      by_cases h3 : e.1.role = CONNECTION_ROLE_UNKNOWN
      · rw [if_pos h3]
      · rw [if_neg h3, hmsg]

theorem runLoop_exit (events : List Event) :
    ∀ (inner : Inner) (res : Except String Unit) (innerF : Inner),
    runLoop inner events = some (res, innerF) →
    (res = .ok () → innerF.current_conns_map = none ∧ innerF.past_conns_map = [] ∧
      innerF.metadata = [] ∧ innerF.program_state = ProgramState.Uninitialized) ∧
    (∀ msg, res = .error msg → innerF.program_state = ProgramState.Failed ∧
      innerF.past_conns_map = inner.past_conns_map ∧ innerF.metadata = inner.metadata) := by
  induction events with
  | nil =>
    intro inner res innerF h
    exact absurd h (by simp [runLoop])
  | cons e rest ih =>
    intro inner res innerF h
    cases e with
    | tick =>
      simp only [runLoop] at h
      cases hp : poll inner with
      | returns p =>
        obtain ⟨r, st2⟩ := p
        cases r with
        | error msg =>
          rw [hp] at h
          simp only [Option.some.injEq, Prod.mk.injEq] at h
          obtain ⟨hres, hF⟩ := h
          constructor
          · intro hok
            rw [hok] at hres
            cases hres
          · intro msg2 _
            rw [← hF]
            exact ⟨rfl, rfl, rfl⟩
        | ok out =>
          rw [hp] at h
          obtain ⟨t, _, _, _, hst⟩ := poll_ok_inv inner out st2 hp
          rw [hst] at h
          exact ih inner res innerF h
      | blocks stB =>
        rw [hp] at h
        cases h
    | signal s =>
      cases s with
      | All =>
        simp only [runLoop, Option.some.injEq, Prod.mk.injEq] at h
        obtain ⟨hres, hF⟩ := h
        constructor
        · intro _
          rw [← hF]
          exact ⟨rfl, rfl, rfl, rfl⟩
        · intro msg hmsg
          rw [hmsg] at hres
          cases hres
      | ProgramName n =>
        simp only [runLoop] at h
        by_cases hn : n = inner.name
        · rw [if_pos hn] at h
          simp only [Option.some.injEq, Prod.mk.injEq] at h
          obtain ⟨hres, hF⟩ := h
          constructor
          · intro _
            rw [← hF]
            exact ⟨rfl, rfl, rfl, rfl⟩
          · intro msg hmsg
            rw [hmsg] at hres
            cases hres
        · rw [if_neg hn] at h
          exact ih inner res innerF h

theorem filterMap_rawContribution_wf (inner : Inner) (t : ConnTable)
    (hwt : ∀ e ∈ t, e.2.bytes_sent < U64MOD) :
    ∀ p ∈ t.filterMap (rawContribution inner), p.2 < U64MOD := by
  intro p hp
  rw [List.mem_filterMap] at hp
  obtain ⟨e, he, hre⟩ := hp
  have hp2 : p.2 = e.2.bytes_sent := by
    unfold rawContribution at hre
    by_cases h1 : e.2.is_active ≠ 1
    · rw [if_pos h1] at hre
      cases hre
    · rw [if_neg h1] at hre
      by_cases h2 : e.1.src_addr = e.1.dest_addr ∨ is_loopback_address e.1.dest_addr = true
      · rw [if_pos h2] at hre
        cases hre
      · rw [if_neg h2] at hre
        by_cases h3 : e.1.role = CONNECTION_ROLE_UNKNOWN
        · rw [if_pos h3] at hre
          cases hre
        · rw [if_neg h3] at hre
          cases hb : build_connection inner e.1 with
          | ok c =>
            rw [hb] at hre
            injection hre with hre
            rw [← hre]
          | error msg =>
            rw [hb] at hre
            cases hre
  rw [hp2]
  exact hwt e he

/-! ### Claim theorems -/

/-- C1 (code divergence evidence): on the eviction scenario — one raw
entry gone inactive with a final count of 120 bytes, both endpoints
resolvable — `poll` blocks forever acquiring the write lock for the
eviction under its own still-held read guard: the engine state is left
exactly as it was, so the raw entry is never removed, the archive never
gains the 120 bytes, and there is no next poll. (Had the eviction body
been reachable, its archive update would still be lost: it mutates a
dropped clone of `past_conns_map`.) -/
theorem spec_c1_archive_update_lost :
    poll exInnerC1 = .blocks exInnerC1 ∧
    exInnerC1.past_conns_map = [] ∧
    exInnerC1.current_conns_map = some exTableC1 ∧
    alistFind (⟨addrA, 1000, addrB, 80, CONNECTION_ROLE_CLIENT⟩ : ConnectionKey) exTableC1 =
      some ⟨120, 0⟩ :=
  ⟨rfl, rfl, rfl, rfl⟩

/-- C2 counterexample: a raw table state with one active resolvable
entry (30 bytes) and one inactive entry: `poll` blocks forever in the
eviction loop and never returns, so there is no returned total at all —
in particular none equal to the active-plus-archive sum the claim
requires for every table state. -/
theorem spec_c2_counterexample :
    poll exInnerC2 = .blocks exInnerC2 ∧
    ∀ r st2, poll exInnerC2 ≠ Outcome.returns (r, st2) := by
  have h1 : poll exInnerC2 = .blocks exInnerC2 := rfl
  refine ⟨h1, fun r st2 hc => ?_⟩
  rw [h1] at hc
  cases hc

/-- C2 as amended: for raw table states whose entries are all active,
`poll` returns with the engine state unchanged (so repeated polls return
the same totals), and its total for any `Connection` is the wrapping-u64
sum of the byte counts of the active raw entries that resolve to it and
of that connection archived total; for any state containing an inactive
entry, `poll` blocks forever in the eviction loop, leaving the state as
it was, and returns nothing. -/
theorem spec_c2_totals (inner : Inner) (t : ConnTable)
    (h : inner.current_conns_map = some t)
    (hwt : ∀ e ∈ t, e.2.bytes_sent < U64MOD)
    (hwp : ∀ p ∈ inner.past_conns_map, p.2 < U64MOD)
    (hnd : (inner.past_conns_map.map Prod.fst).Nodup) :
    ((∀ e ∈ t, e.2.is_active = 1) →
      ∃ out, poll inner = .returns (.ok out, inner) ∧
        ∀ c, lookupD out c =
          u64add ((activeBytes inner t c).foldl u64add 0) (lookupD inner.past_conns_map c)) ∧
    ((∃ e ∈ t, e.2.is_active ≠ 1) → poll inner = .blocks inner) := by
  have hwc := filterMap_rawContribution_wf inner t hwt
  have hnilwf : ∀ p ∈ ([] : List (Connection × Nat)), p.2 < U64MOD := by
    intro p hp
    cases hp
  have hacc : ∀ p ∈ accumAll [] (t.filterMap (rawContribution inner)), p.2 < U64MOD :=
    accumAll_wf _ [] hnilwf hwc
  constructor
  · intro hall
    have hfil : inactiveKeys t = [] := by
      unfold inactiveKeys
      have : t.filter (fun e => decide (e.2.is_active ≠ 1)) = [] := by
        rw [List.filter_eq_nil_iff]
        intro e he
        simp [hall e he]
      rw [this]
      rfl
    refine ⟨_, poll_eq_active inner t h hfil, fun c => ?_⟩
    rw [lookupD_accumAll inner.past_conns_map
      (accumAll [] (t.filterMap (rawContribution inner))) c hacc hwp]
    rw [lookupD_accumAll (t.filterMap (rawContribution inner)) [] c hnilwf hwc]
    rw [valuesAt_nodup inner.past_conns_map c hnd]
    unfold activeBytes
    cases hf : alistFind c inner.past_conns_map with
    | none =>
      have hlp : lookupD inner.past_conns_map c = 0 := by
        unfold lookupD
        rw [hf]
        rfl
      rw [hlp, u64add_zero _ (foldl_u64add_lt _ _ U64MOD_pos)]
      rfl
    | some v =>
      have hlp : lookupD inner.past_conns_map c = v := by
        unfold lookupD
        rw [hf]
        rfl
      rw [hlp]
      rfl
  · intro hex
    obtain ⟨e, he, hin⟩ := hex
    refine poll_eq_blocked inner t h (fun hnil => ?_)
    have : e.1 ∈ inactiveKeys t := by
      unfold inactiveKeys
      rw [List.mem_map]
      exact ⟨e, List.mem_filter.mpr ⟨he, by simp [hin]⟩, rfl⟩
    rw [hnil] at this
    cases this

/-- Witness for C2 as amended: the all-active arm at the two-entry
scenario table and the blocking arm at a table with an inactive entry. -/
theorem spec_c2_totals_witness :
    (∃ out, poll exInnerC3 = .returns (.ok out, exInnerC3) ∧
      ∀ c, lookupD out c =
        u64add ((activeBytes exInnerC3 exTableC3 c).foldl u64add 0)
          (lookupD exInnerC3.past_conns_map c)) ∧
    poll exInnerC2 = .blocks exInnerC2 :=
  ⟨(spec_c2_totals exInnerC3 exTableC3 rfl (by decide) (by decide) (by decide)).1 (by decide),
   (spec_c2_totals exInnerC2 exTableC2 rfl (by decide) (by decide) (by decide)).2
     ⟨(⟨addrB, 80, addrA, 1000, CONNECTION_ROLE_SERVER⟩, ⟨120, 0⟩), by decide, by decide⟩⟩

/-- C3 counterexample: on the spec scenario table (role-symmetric raw
pair, A resolving to X and B to Y), `poll` does NOT return a single
connection with total 150: it returns two distinct `Connection` keys,
one per role, with totals 100 and 50. -/
theorem spec_c3_counterexample :
    poll exInnerC3 = .returns (.ok [(connC3client, 100), (connC3server, 50)], exInnerC3) ∧
    connC3client ≠ connC3server :=
  ⟨rfl, by decide⟩

/-- C3 as amended: on the scenario table, `poll` returns exactly two
connections, both client X, server Y, server port 80, distinguished by
the role field (which participates in `Connection` equality), the
Client-role one with total 100 and the Server-role one with total 50. -/
theorem spec_c3_role_split :
    poll exInnerC3 =
      .returns (.ok [(⟨wlX, wlY, CONNECTION_ROLE_CLIENT, 80⟩, 100),
                     (⟨wlX, wlY, CONNECTION_ROLE_SERVER, 80⟩, 50)], exInnerC3) :=
  rfl

/-- C4 counterexample: a `start` that exits through a fatal poll error
returns with the engine NOT reset: metadata is retained and the state is
Failed, not Uninitialized. -/
theorem spec_c4_counterexample :
    start exInnerC4 [Event.tick] =
      some (.error errNoMap, { exInnerC4 with program_state := ProgramState.Failed }) ∧
    ({ exInnerC4 with program_state := ProgramState.Failed }).metadata = [("k", "v")] ∧
    ({ exInnerC4 with program_state := ProgramState.Failed }).program_state ≠
      ProgramState.Uninitialized :=
  ⟨rfl, rfl, by decide⟩

/-- C4 as amended: on a shutdown-driven exit `start` resets the engine
(table handle, archive and metadata cleared, state Uninitialized) before
returning; on a fatal poll error it returns the error with the state set
to Failed and without resetting — archive and metadata are retained. -/
theorem spec_c4_exit_behavior (inner : Inner) (events : List Event)
    (res : Except String Unit) (innerF : Inner)
    (h : start inner events = some (res, innerF)) :
    (res = .ok () → innerF.current_conns_map = none ∧ innerF.past_conns_map = [] ∧
      innerF.metadata = [] ∧ innerF.program_state = ProgramState.Uninitialized) ∧
    (∀ msg, res = .error msg → innerF.program_state = ProgramState.Failed ∧
      innerF.past_conns_map = inner.past_conns_map ∧ innerF.metadata = inner.metadata) :=
  runLoop_exit events { inner with program_state := ProgramState.Running } res innerF h

/-- Witness for C4 as amended: a shutdown-addressed exit at a concrete
engine, with the reset conclusions evaluated. -/
theorem spec_c4_witness :
    (reset { exInnerC4 with program_state := ProgramState.Running }).current_conns_map = none ∧
    (reset { exInnerC4 with program_state := ProgramState.Running }).past_conns_map = [] ∧
    (reset { exInnerC4 with program_state := ProgramState.Running }).metadata = [] ∧
    (reset { exInnerC4 with program_state := ProgramState.Running }).program_state =
      ProgramState.Uninitialized :=
  (spec_c4_exit_behavior exInnerC4 [Event.signal ShutdownSignal.All] (.ok ()) _ rfl).1 rfl

/-- C5: `start` on an engine with no bound raw table handle (never
initialized), with only timer ticks and no shutdown signal delivered,
deterministically returns an error on the first tick, with the state set
to Failed. -/
theorem spec_c5_uninitialized_start (inner : Inner) (rest : List Event)
    (h : inner.current_conns_map = none) :
    start inner (Event.tick :: rest) =
      some (.error errNoMap, { inner with program_state := ProgramState.Failed }) := by
  simp [start, runLoop, poll, h]

/-- Witness for C5 at a concrete uninitialized engine. -/
theorem spec_c5_witness :
    start exInnerC4 [Event.tick] =
      some (.error errNoMap, { exInnerC4 with program_state := ProgramState.Failed }) :=
  spec_c5_uninitialized_start exInnerC4 [] rfl

/-- C6: when both endpoints resolve, a Client-role raw key yields a
connection whose server port is the destination port, with the source
workload as client and the destination workload as server; a Server-role
raw key yields a connection whose server port is the source port, with
the roles of the workloads swapped. -/
theorem spec_c6_role_port (inner : Inner) (key : ConnectionKey) (cw sw : Workload)
    (hc : resolve_ip inner key.src_addr = some cw)
    (hs : resolve_ip inner key.dest_addr = some sw) :
    (key.role = CONNECTION_ROLE_CLIENT →
      build_connection inner key = .ok ⟨cw, sw, CONNECTION_ROLE_CLIENT, key.dest_port⟩) ∧
    (key.role = CONNECTION_ROLE_SERVER →
      build_connection inner key = .ok ⟨sw, cw, CONNECTION_ROLE_SERVER, key.src_port⟩) := by
  constructor
  · intro hr
    simp [build_connection, hc, hs, hr]
  · intro hr
    simp [build_connection, hc, hs, hr, CONNECTION_ROLE_SERVER, CONNECTION_ROLE_CLIENT]

/-- Witness for C6 at the concrete Client-role key of the scenario. -/
theorem spec_c6_witness :
    build_connection exInnerC3 ⟨addrA, 1000, addrB, 80, CONNECTION_ROLE_CLIENT⟩ =
      .ok ⟨wlX, wlY, CONNECTION_ROLE_CLIENT, 80⟩ :=
  (spec_c6_role_port exInnerC3 ⟨addrA, 1000, addrB, 80, CONNECTION_ROLE_CLIENT⟩ wlX wlY
    rfl rfl).1 rfl

/-- C7: whenever `poll` returns an output, that output is exactly the
one computed from the table with the self-connection and
loopback-destination entries removed — they contribute nothing — and on
every path, returning or blocking, the archive is left unchanged, so
such entries are never added to it. -/
theorem spec_c7_excluded_entries (inner : Inner) (t : ConnTable)
    (h : inner.current_conns_map = some t) :
    (∀ out st2, poll inner = .returns (.ok out, st2) →
      out = accumAll
        (accumAll [] ((t.filter notSelfLoopback).filterMap (rawContribution inner)))
        inner.past_conns_map ∧
      st2.past_conns_map = inner.past_conns_map) ∧
    (∀ stB, poll inner = .blocks stB → stB.past_conns_map = inner.past_conns_map) := by
  constructor
  · intro out st2 hp
    obtain ⟨t2, hm2, _, hout, hst⟩ := poll_ok_inv inner out st2 hp
    have ht : t2 = t := by
      rw [h] at hm2
      injection hm2 with hm2
      exact hm2.symm
    rw [ht] at hout
    refine ⟨?_, by rw [hst]⟩
    rw [hout, filterMap_of_filter (rawContribution inner) notSelfLoopback t
      (fun e _ hpe => rawContribution_none_of_excluded inner e hpe)]
  · intro stB hp
    rw [poll_blocks_inv inner stB hp]

/-- Witness for C7 at the concrete all-active scenario table. -/
theorem spec_c7_witness :
    [(connC3client, 100), (connC3server, 50)] = accumAll
      (accumAll [] ((exTableC3.filter notSelfLoopback).filterMap (rawContribution exInnerC3)))
      exInnerC3.past_conns_map ∧
    exInnerC3.past_conns_map = exInnerC3.past_conns_map :=
  (spec_c7_excluded_entries exInnerC3 exTableC3 rfl).1
    [(connC3client, 100), (connC3server, 50)] exInnerC3 rfl

/-- C8: whenever `poll` returns an output, that output is exactly the
one computed from the table with the entries having an unresolvable
endpoint removed — they contribute nothing — and with the table handle
present `poll` never returns an error, so per-entry resolution failures
never make `poll` fail. -/
theorem spec_c8_unresolved_entries (inner : Inner) (t : ConnTable)
    (h : inner.current_conns_map = some t) :
    (∀ out st2, poll inner = .returns (.ok out, st2) →
      out = accumAll
        (accumAll [] ((t.filter (bothResolvable inner)).filterMap (rawContribution inner)))
        inner.past_conns_map) ∧
    (∀ msg st2, poll inner ≠ .returns (.error msg, st2)) := by
  constructor
  · intro out st2 hp
    obtain ⟨t2, hm2, _, hout, _⟩ := poll_ok_inv inner out st2 hp
    have ht : t2 = t := by
      rw [h] at hm2
      injection hm2 with hm2
      exact hm2.symm
    rw [ht] at hout
    rw [hout, filterMap_of_filter (rawContribution inner) (bothResolvable inner) t
      (fun e _ hpe => rawContribution_none_of_unresolved inner e hpe)]
  · exact poll_no_error inner t h

/-- Witness for C8 at the concrete all-active scenario table. -/
theorem spec_c8_witness :
    [(connC3client, 100), (connC3server, 50)] = accumAll
      (accumAll []
        ((exTableC3.filter (bothResolvable exInnerC3)).filterMap (rawContribution exInnerC3)))
      exInnerC3.past_conns_map ∧
    poll exInnerC3 ≠ .returns (.error errNoMap, exInnerC3) :=
  ⟨(spec_c8_unresolved_entries exInnerC3 exTableC3 rfl).1
      [(connC3client, 100), (connC3server, 50)] exInnerC3 rfl,
   (spec_c8_unresolved_entries exInnerC3 exTableC3 rfl).2 errNoMap exInnerC3⟩

/-- C9: for each return probe, when no scratch record for the thread is
present the probe emits no sample and leaves the scratch table unchanged;
when one is present, exactly one sample is emitted and the record is
removed, whatever the accounting routine returns (success or error). -/
theorem spec_c9_scratch_discipline (pid : Nat) (bytes : Int) (wm : List (Nat × DataArgs))
    (cm : List (Nat × ConnectArgs)) (rm : List (Nat × DataArgs)) (acct : Except Int Unit) :
    (alistFind pid wm = none → try_ret_send pid bytes wm acct = (.error 1, wm, 0)) ∧
    (alistFind pid wm ≠ none →
      (try_ret_send pid bytes wm acct).2.2 = 1 ∧
      alistFind pid (try_ret_send pid bytes wm acct).2.1 = none) ∧
    (alistFind pid rm = none →
      (try_ret_recvmsg pid bytes cm rm acct).2.2.2 = 0 ∧
      (try_ret_recvmsg pid bytes cm rm acct).2.2.1 = rm) ∧
    (alistFind pid rm ≠ none →
      (try_ret_recvmsg pid bytes cm rm acct).2.2.2 = 1 ∧
      alistFind pid (try_ret_recvmsg pid bytes cm rm acct).2.2.1 = none) := by
  refine ⟨?_, ?_, ?_, ?_⟩
  · intro hf
    simp [try_ret_send, hf]
  · intro hf
    cases hw : alistFind pid wm with
    | none => exact absurd hw hf
    | some d =>
      constructor
      · simp [try_ret_send, hw]
      · simp [try_ret_send, hw, alistFind_alistRemove]
  · intro hf
    cases hc : alistFind pid cm with
    | none => exact ⟨by simp [try_ret_recvmsg, hf, hc], by simp [try_ret_recvmsg, hf, hc]⟩
    | some a => exact ⟨by simp [try_ret_recvmsg, hf, hc], by simp [try_ret_recvmsg, hf, hc]⟩
  · intro hf
    cases hr : alistFind pid rm with
    | none => exact absurd hr hf
    | some d =>
      cases hc : alistFind pid cm with
      | none =>
        exact ⟨by simp [try_ret_recvmsg, hr, hc],
          by simp [try_ret_recvmsg, hr, hc, alistFind_alistRemove]⟩
      | some a =>
        exact ⟨by simp [try_ret_recvmsg, hr, hc],
          by simp [try_ret_recvmsg, hr, hc, alistFind_alistRemove]⟩

/-- Witness for C9: both the record-absent and record-present cases at
concrete scratch tables, for both probes. -/
theorem spec_c9_witness :
    (try_ret_send 7 1 [] (.ok ()) = (.error 1, [], 0)) ∧
    ((try_ret_send 7 1 [(7, exDataArgs)] (.ok ())).2.2 = 1 ∧
      alistFind 7 (try_ret_send 7 1 [(7, exDataArgs)] (.ok ())).2.1 = none) ∧
    ((try_ret_recvmsg 7 1 [] [] (.ok ())).2.2.2 = 0 ∧
      (try_ret_recvmsg 7 1 [] [] (.ok ())).2.2.1 = []) ∧
    ((try_ret_recvmsg 7 1 [] [(7, exDataArgs)] (.ok ())).2.2.2 = 1 ∧
      alistFind 7 (try_ret_recvmsg 7 1 [] [(7, exDataArgs)] (.ok ())).2.2.1 = none) :=
  ⟨(spec_c9_scratch_discipline 7 1 [] [] [] (.ok ())).1 rfl,
   (spec_c9_scratch_discipline 7 1 [(7, exDataArgs)] [] [] (.ok ())).2.1 (by decide),
   (spec_c9_scratch_discipline 7 1 [] [] [] (.ok ())).2.2.1 rfl,
   (spec_c9_scratch_discipline 7 1 [] [] [(7, exDataArgs)] (.ok ())).2.2.2 (by decide)⟩

/-- C10 counterexample: at a concrete inactive entry with unresolvable
endpoints, `poll` blocks forever with the engine state untouched — the
entry is still in the raw table (not removed) and `poll` never returns,
so it neither succeeds nor drops the entry as the claim asserts. -/
theorem spec_c10_counterexample :
    poll exInnerC10 = .blocks exInnerC10 ∧
    alistFind (⟨addrA, 1000, addrB, 80, CONNECTION_ROLE_CLIENT⟩ : ConnectionKey) exTableC10 =
      some ⟨120, 0⟩ ∧
    exInnerC10.current_conns_map = some exTableC10 ∧
    ∀ r st2, poll exInnerC10 ≠ Outcome.returns (r, st2) := by
  have h1 : poll exInnerC10 = .blocks exInnerC10 := rfl
  refine ⟨h1, rfl, rfl, fun r st2 hc => ?_⟩
  rw [h1] at hc
  cases hc

/-- C10 as amended: when an inactive raw entry is queued for eviction,
`handle_inactive_connection` blocks forever acquiring the engine write
lock under the read guard `poll` still holds, before removing anything:
the raw entry stays in the table, the archive is untouched, identity
resolution is never even attempted, and `poll` never returns (the
blocked state is exactly the input state). -/
theorem spec_c10_eviction_blocks (inner : Inner) (t : ConnTable) (key : ConnectionKey)
    (stats : ConnectionStats) (h : inner.current_conns_map = some t)
    (hmem : (key, stats) ∈ t) (hin : stats.is_active ≠ 1) :
    poll inner = .blocks inner := by
  refine poll_eq_blocked inner t h (fun hnil => ?_)
  have hks : key ∈ inactiveKeys t := by
    unfold inactiveKeys
    rw [List.mem_map]
    exact ⟨(key, stats), List.mem_filter.mpr ⟨hmem, by simp [hin]⟩, rfl⟩
  rw [hnil] at hks
  cases hks

/-- Witness for C10 as amended at a concrete inactive entry. -/
theorem spec_c10_witness :
    poll exInnerC10 = .blocks exInnerC10 :=
  spec_c10_eviction_blocks exInnerC10 exTableC10
    ⟨addrA, 1000, addrB, 80, CONNECTION_ROLE_CLIENT⟩ ⟨120, 0⟩ rfl (by decide) (by decide)

end BPFConductor
